import Mathlib

/-!
Verification of yhj0901/windows_service_module against its specification.

The Go sources (src/main.go, src/config.go) are shallowly embedded below.
Each OS interaction (service-control manager, event log, file system,
sleeping) is modelled by an explicit environment record that fixes the
outcome of every external call, and each function under verification is
translated into a pure Lean function from that environment to the trace
of externally visible actions it performs (status reports, registry
calls, log writes) together with its returned error, mirroring the Go
control flow statement by statement.
-/

/-- Service states of the OS service-control facility
(golang.org/x/sys/windows/svc.State). -/
inductive SvcState where
  | stopped
  | startPending
  | stopPending
  | running
  | continuePending
  | pausePending
  | paused
deriving DecidableEq, Repr

/-- A status report sent to the OS (svc.Status): a state together with the
accepted-controls bitmask. -/
structure SvcStatus where
  state : SvcState
  accepts : Nat
deriving DecidableEq, Repr

/-- svc.AcceptStop. -/
def acceptStop : Nat := 1

/-- svc.AcceptShutdown. -/
def acceptShutdown : Nat := 4

/-- const cmdsAccepted = svc.AcceptStop | svc.AcceptShutdown (main.go:52). -/
def cmdsAccepted : Nat := acceptStop ||| acceptShutdown

/-- svc.Stop control command code. -/
def svcStopCmd : Nat := 1

/-- svc.Interrogate control command code. -/
def svcInterrogateCmd : Nat := 4

/-- svc.Shutdown control command code. -/
def svcShutdownCmd : Nat := 5

/-- ServiceConfig (src/config.go:14-29); loaded from service_config.json. -/
structure ServiceConfig where
  ServiceName : String
  ServiceDescription : String
  RestartOnFailure : Bool
  RestartDelay : Int
  MaxRestartAttempts : Int
  LogPath : String
  DatabasePath : String
  MonitoringPath : List String
  CustomDataPath : String
deriving DecidableEq, Repr

/-- defaultConfig (src/config.go:32-42). -/
def defaultConfig : ServiceConfig :=
  ⟨"hj-service", "hj-service module", true, 5, 3, "./logs", "./db.sqlite",
   ["C:\\"], "./data"⟩

/-- mgr.RecoveryAction action types (golang.org/x/sys/windows/svc/mgr). -/
inductive RecoveryType where
  | noAction
  | computerReboot
  | runCommand
  | serviceRestart
deriving DecidableEq, Repr

/-- mgr.RecoveryAction: an action type with its delay.  The Go code builds
delays as `time.Duration(n) * time.Second`; the delay is recorded here in
seconds, as the Go `int` value `n` (an `Int`). -/
structure RecoveryAction where
  type : RecoveryType
  delaySeconds : Int
deriving DecidableEq, Repr

/-- Externally visible actions of installService / removeService:
service-control-manager calls, event-log registration calls, and the
console / plain-log lines they print. -/
inductive MgrOut where
  | openServiceCall (name : String)
  | closeService
  | createServiceCall (name desc : String) (args : List String)
  | setRecoveryActionsCall (actions : List RecoveryAction) (resetPeriodSeconds : Nat)
  | recoveryWarnLogged
  | installEventlogCall (name : String)
  | deleteServiceCall
  | removeEventlogCall (name : String)
  | controlStopCall
  | stopIgnoredPrinted
  | installedPrinted (name : String)
  | removedPrinted (name : String)
deriving DecidableEq, Repr

/-- The error conditions the manager functions surface to their caller
(each corresponds to one fmt.Errorf site in src/main.go). -/
inductive MgrErr where
  | exePathFailed
  | connectFailed
  | alreadyRegistered (name : String)
  | createFailed
  | eventlogInstallFailed
  | openFailed (name : String)
  | deleteFailed
  | eventlogRemoveFailed
  | controlStopFailed
  | queryFailed
deriving DecidableEq, Repr

/-- Outcomes of the external calls installService makes, fixed up front:
os.Executable, mgr.Connect, whether m.OpenService(name) succeeds (the
service already exists), m.CreateService, s.SetRecoveryActions, and
eventlog.InstallAsEventCreate. -/
structure InstallEnv where
  exePathOk : Bool
  connectOk : Bool
  serviceExists : Bool
  createOk : Bool
  setRecoveryOk : Bool
  eventlogInstallOk : Bool
deriving DecidableEq, Repr

/-- The recovery-action list built at main.go:219-223: three ServiceRestart
actions delayed by RestartDelay, RestartDelay*2 and RestartDelay*3 seconds. -/
def recoveryPlan (cfg : ServiceConfig) : List RecoveryAction :=
  [⟨.serviceRestart, cfg.RestartDelay⟩,
   ⟨.serviceRestart, cfg.RestartDelay * 2⟩,
   ⟨.serviceRestart, cfg.RestartDelay * 3⟩]

/-- installService (src/main.go:185-238), translated statement by
statement: resolve the executable path; connect to the manager; fail if
OpenService succeeds (service already exists), closing the handle;
CreateService with fixed "is" "auto-started" arguments; if
cfg.RestartOnFailure, call SetRecoveryActions with `recoveryPlan` and a
60-second reset period, logging a warning and continuing if that call
fails; finally InstallAsEventCreate, deleting the service and returning
the error if it fails. Returns the action trace and the returned error. -/
def installService (cfg : ServiceConfig) (env : InstallEnv) :
    List MgrOut × Option MgrErr :=
  if ¬env.exePathOk then ([], some .exePathFailed)
  else if ¬env.connectOk then ([], some .connectFailed)
  else if env.serviceExists then
    ([.openServiceCall cfg.ServiceName, .closeService],
     some (.alreadyRegistered cfg.ServiceName))
  else
    let created := [MgrOut.openServiceCall cfg.ServiceName,
                    MgrOut.createServiceCall cfg.ServiceName
                      cfg.ServiceDescription ["is", "auto-started"]]
    if ¬env.createOk then (created, some .createFailed)
    else
      let recovered := created ++
        (if cfg.RestartOnFailure then
           [MgrOut.setRecoveryActionsCall (recoveryPlan cfg) 60] ++
             (if ¬env.setRecoveryOk then [MgrOut.recoveryWarnLogged] else [])
         else [])
      let attempted := recovered ++ [MgrOut.installEventlogCall cfg.ServiceName]
      if ¬env.eventlogInstallOk then
        (attempted ++ [MgrOut.deleteServiceCall], some .eventlogInstallFailed)
      else
        (attempted ++ [MgrOut.installedPrinted cfg.ServiceName], none)

/-- The SetRecoveryActions calls recorded in a manager trace, with their
reset periods. -/
def recoveryCalls : List MgrOut → List (List RecoveryAction × Nat)
  | [] => []
  | .setRecoveryActionsCall a r :: rest => (a, r) :: recoveryCalls rest
  | _ :: rest => recoveryCalls rest

/-- C4: if a service with the requested name already exists, installService
returns the already-registered error and performs no create, configure or
delete operation: its whole interaction with the registry is opening and
closing the existing service's handle. -/
theorem installService_already_registered (cfg : ServiceConfig)
    (env : InstallEnv) (h1 : env.exePathOk = true) (h2 : env.connectOk = true)
    (h3 : env.serviceExists = true) :
    installService cfg env =
      ([.openServiceCall cfg.ServiceName, .closeService],
       some (.alreadyRegistered cfg.ServiceName)) ∧
    (∀ n d a, MgrOut.createServiceCall n d a ∉ (installService cfg env).1) ∧
    (∀ p r, MgrOut.setRecoveryActionsCall p r ∉ (installService cfg env).1) ∧
    MgrOut.deleteServiceCall ∉ (installService cfg env).1 := by
  simp [installService, h1, h2, h3]

/-- C4 witness: a concrete run on the default configuration in which the
service already exists. -/
theorem installService_already_registered_check :
    installService defaultConfig ⟨true, true, true, true, true, true⟩ =
      ([.openServiceCall defaultConfig.ServiceName, .closeService],
       some (.alreadyRegistered defaultConfig.ServiceName)) ∧
    (∀ n d a, MgrOut.createServiceCall n d a ∉
      (installService defaultConfig ⟨true, true, true, true, true, true⟩).1) ∧
    (∀ p r, MgrOut.setRecoveryActionsCall p r ∉
      (installService defaultConfig ⟨true, true, true, true, true, true⟩).1) ∧
    MgrOut.deleteServiceCall ∉
      (installService defaultConfig ⟨true, true, true, true, true, true⟩).1 :=
  installService_already_registered defaultConfig
    ⟨true, true, true, true, true, true⟩ rfl rfl rfl

/-- C2: whenever installService reaches the creation stage (executable path
resolved, manager connected, name not yet registered, CreateService
succeeded), it calls SetRecoveryActions exactly once if and only if
cfg.RestartOnFailure, with the plan of three ServiceRestart actions delayed
d, 2d and 3d seconds (d = RestartDelay) and a 60-second reset period; a
failing SetRecoveryActions is logged as a warning, and whenever the final
event-log registration succeeds installService returns no error regardless
of whether applying the plan failed. -/
theorem installService_recovery_plan (cfg : ServiceConfig) (env : InstallEnv)
    (h1 : env.exePathOk = true) (h2 : env.connectOk = true)
    (h3 : env.serviceExists = false) (h4 : env.createOk = true) :
    recoveryCalls (installService cfg env).1 =
      (if cfg.RestartOnFailure then [(recoveryPlan cfg, 60)] else []) ∧
    recoveryPlan cfg =
      [⟨.serviceRestart, cfg.RestartDelay⟩,
       ⟨.serviceRestart, 2 * cfg.RestartDelay⟩,
       ⟨.serviceRestart, 3 * cfg.RestartDelay⟩] ∧
    (cfg.RestartOnFailure = true → env.setRecoveryOk = false →
      MgrOut.recoveryWarnLogged ∈ (installService cfg env).1) ∧
    (env.eventlogInstallOk = true → (installService cfg env).2 = none) := by
  refine ⟨?_, ?_, ?_, ?_⟩
  · cases hr : cfg.RestartOnFailure <;>
      cases hs : env.setRecoveryOk <;>
      cases he : env.eventlogInstallOk <;>
      simp [installService, h1, h2, h3, h4, hr, hs, he, recoveryCalls]
  · simp [recoveryPlan, Int.mul_comm]
  · intro hr hs
    cases he : env.eventlogInstallOk <;>
      simp [installService, h1, h2, h3, h4, hr, hs, he]
  · intro he
    cases hr : cfg.RestartOnFailure <;>
      cases hs : env.setRecoveryOk <;>
      simp [installService, h1, h2, h3, h4, hr, hs, he]

/-- C2 witness: concrete install in which applying the recovery plan fails
but the installation still succeeds. -/
theorem installService_recovery_plan_check :
    recoveryCalls
        (installService defaultConfig ⟨true, true, false, true, false, true⟩).1 =
      (if defaultConfig.RestartOnFailure
        then [(recoveryPlan defaultConfig, 60)] else []) ∧
    recoveryPlan defaultConfig =
      [⟨.serviceRestart, defaultConfig.RestartDelay⟩,
       ⟨.serviceRestart, 2 * defaultConfig.RestartDelay⟩,
       ⟨.serviceRestart, 3 * defaultConfig.RestartDelay⟩] ∧
    (defaultConfig.RestartOnFailure = true → (false : Bool) = false →
      MgrOut.recoveryWarnLogged ∈
        (installService defaultConfig ⟨true, true, false, true, false, true⟩).1) ∧
    (true = true →
      (installService defaultConfig ⟨true, true, false, true, false, true⟩).2 =
        none) :=
  installService_recovery_plan defaultConfig
    ⟨true, true, false, true, false, true⟩ rfl rfl rfl rfl

/-- C3: if the service registration was created but the event-log source
registration fails, installService deletes the just-created registration
(the trace ends with the failed InstallAsEventCreate attempt followed by
Delete) and surfaces the event-log failure to the caller. -/
theorem installService_eventlog_rollback (cfg : ServiceConfig)
    (env : InstallEnv) (h1 : env.exePathOk = true) (h2 : env.connectOk = true)
    (h3 : env.serviceExists = false) (h4 : env.createOk = true)
    (h5 : env.eventlogInstallOk = false) :
    (∃ pre, (installService cfg env).1 =
      pre ++ [MgrOut.installEventlogCall cfg.ServiceName,
              MgrOut.deleteServiceCall]) ∧
    (installService cfg env).2 = some .eventlogInstallFailed := by
  constructor
  · refine ⟨[MgrOut.openServiceCall cfg.ServiceName,
      MgrOut.createServiceCall cfg.ServiceName cfg.ServiceDescription
        ["is", "auto-started"]] ++
      (if cfg.RestartOnFailure then
        [MgrOut.setRecoveryActionsCall (recoveryPlan cfg) 60] ++
          (if ¬env.setRecoveryOk then [MgrOut.recoveryWarnLogged] else [])
       else []), ?_⟩
    simp [installService, h1, h2, h3, h4, h5]
  · cases hr : cfg.RestartOnFailure <;>
      cases hs : env.setRecoveryOk <;>
      simp [installService, h1, h2, h3, h4, h5, hr, hs]

/-- C3 witness: concrete install in which the event-log registration fails
after the service was created. -/
theorem installService_eventlog_rollback_check :
    (∃ pre,
      (installService defaultConfig ⟨true, true, false, true, true, false⟩).1 =
        pre ++ [MgrOut.installEventlogCall defaultConfig.ServiceName,
                MgrOut.deleteServiceCall]) ∧
    (installService defaultConfig ⟨true, true, false, true, true, false⟩).2 =
      some .eventlogInstallFailed :=
  installService_eventlog_rollback defaultConfig
    ⟨true, true, false, true, true, false⟩ rfl rfl rfl rfl rfl

/-- Outcomes of the external calls stopService makes: mgr.Connect,
m.OpenService, s.Control(svc.Stop) (returning the status it observed, or
none on error), and the successive s.Query() results inside the wait loop
(query n is the result of the n-th Query call, none meaning an error). -/
structure StopEnv where
  connectOk : Bool
  openOk : Bool
  controlResult : Option SvcState
  query : Nat → Option SvcState

/-- Result of stopService.  `success sleeps` and `queryError sleeps` record
how many 500 ms sleeps the wait loop performed before returning;
`fuelExhausted` means the loop had not terminated within the given number
of iterations (the Go loop itself has no bound). -/
inductive StopOutcome where
  | success (sleeps : Nat)
  | connectError
  | openError
  | controlError
  | queryError (sleeps : Nat)
  | fuelExhausted
deriving DecidableEq, Repr

/-- The wait loop of stopService (src/main.go:329-335): while the observed
state is not Stopped, sleep 500 ms and Query again, returning the query
error if one occurs.  `sleeps` counts the sleeps performed so far (and
indexes the next Query); `fuel` bounds the number of iterations examined,
standing in for the unbounded Go loop. -/
def stopPoll (query : Nat → Option SvcState) :
    SvcState → Nat → Nat → StopOutcome
  | st, sleeps, fuel =>
    if st = .stopped then .success sleeps
    else
      match fuel with
      | 0 => .fuelExhausted
      | fuel' + 1 =>
        match query sleeps with
        | none => .queryError (sleeps + 1)
        | some st' => stopPoll query st' (sleeps + 1) fuel'

/-- stopService (src/main.go:310-339): connect, open the service, send the
Stop control, then poll with `stopPoll` starting from the status the
control call returned. -/
def stopService (env : StopEnv) (fuel : Nat) : StopOutcome :=
  if ¬env.connectOk then .connectError
  else if ¬env.openOk then .openError
  else
    match env.controlResult with
    | none => .controlError
    | some st => stopPoll env.query st 0 fuel

/-- Once Stopped is observed the wait loop exits at once, whatever its
remaining iteration budget. -/
theorem stopPoll_stopped (query : Nat → Option SvcState) (sleeps fuel : Nat) :
    stopPoll query .stopped sleeps fuel = .success sleeps := by
  cases fuel <;> simp [stopPoll]

/-- stopPoll never terminates on a service that reports StopPending forever:
whatever iteration bound is examined, the loop is still running. -/
theorem stopPoll_stopPending_forever (sleeps fuel : Nat) :
    stopPoll (fun _ => some .stopPending) .stopPending sleeps fuel =
      .fuelExhausted := by
  induction fuel generalizing sleeps with
  | zero => simp [stopPoll]
  | succ n ih => simp [stopPoll, ih]

/-- C5: stopService polls every 500 ms until Stopped is observed.  First,
on the observed status sequence StopPending (from the Stop control),
StopPending, Stopped it returns success after the third observation having
slept twice, i.e. about 1000 ms, for every remaining iteration budget.
Second, a failing status query during polling surfaces the error.  Third,
the loop has no upper bound on iterations: a service that reports
StopPending forever outruns every bound. -/
theorem stopService_polls_until_stopped :
    (∀ fuel, stopService
        ⟨true, true, some .stopPending,
         fun n => if n = 0 then some .stopPending else some .stopped⟩
        (fuel + 2) = .success 2) ∧
    (∀ (q : Nat → Option SvcState) (st : SvcState) (fuel : Nat),
      st ≠ .stopped → q 0 = none →
        stopPoll q st 0 (fuel + 1) = .queryError 1) ∧
    (∀ fuel, stopPoll (fun _ => some .stopPending) .stopPending 0 fuel =
      .fuelExhausted) := by
  refine ⟨?_, ?_, ?_⟩
  · intro fuel
    simp [stopService, stopPoll, stopPoll_stopped]
  · intro q st fuel hst hq
    simp [stopPoll, hst, hq]
  · intro fuel
    exact stopPoll_stopPending_forever 0 fuel

/-- C5 witness: the query-failure branch at a concrete input. -/
theorem stopService_polls_until_stopped_check :
    stopPoll (fun _ => none) .stopPending 0 1 = .queryError 1 :=
  stopService_polls_until_stopped.2.1 (fun _ => none) .stopPending 0
    (by decide) rfl

/-- Outcomes of the external calls removeService makes: mgr.Connect,
m.OpenService, s.Control(svc.Stop), the Query results of the wait loop,
s.Delete, and eventlog.Remove. -/
structure RemoveEnv where
  connectOk : Bool
  openOk : Bool
  controlResult : Option SvcState
  query : Nat → Option SvcState
  deleteOk : Bool
  eventlogRemoveOk : Bool

/-- The wait loop of removeService (src/main.go:261-267): like stopService's
loop, but a Query error breaks out of the loop instead of failing the call.
Returns the number of sleeps performed when the loop exits, or none if it
had not terminated within `fuel` iterations. -/
def removeWait (query : Nat → Option SvcState) :
    SvcState → Nat → Nat → Option Nat
  | st, sleeps, fuel =>
    if st = .stopped then some sleeps
    else
      match fuel with
      | 0 => none
      | fuel' + 1 =>
        match query sleeps with
        | none => some (sleeps + 1)
        | some st' => removeWait query st' (sleeps + 1) fuel'

/-- removeService (src/main.go:241-284): connect; open the named service; send
the Stop control — on error print the ignored-failure message and continue,
on success wait for Stopped (Query errors break the wait); then Delete the
registration (failure is fatal) and remove the event-log source (failure is
fatal).  Returns none if the wait loop exhausted its iteration budget,
otherwise the action trace and the returned error. -/
def removeService (cfg : ServiceConfig) (env : RemoveEnv) (fuel : Nat) :
    Option (List MgrOut × Option MgrErr) :=
  if ¬env.connectOk then some ([], some .connectFailed)
  else if ¬env.openOk then
    some ([.openServiceCall cfg.ServiceName],
          some (.openFailed cfg.ServiceName))
  else
    let base := [MgrOut.openServiceCall cfg.ServiceName, MgrOut.controlStopCall]
    let waited : Option (List MgrOut) :=
      match env.controlResult with
      | none => some (base ++ [MgrOut.stopIgnoredPrinted])
      | some st => (removeWait env.query st 0 fuel).map fun _ => base
    match waited with
    | none => none
    | some pre =>
      if ¬env.deleteOk then
        some (pre ++ [MgrOut.deleteServiceCall], some .deleteFailed)
      else if ¬env.eventlogRemoveOk then
        some (pre ++ [MgrOut.deleteServiceCall,
                      MgrOut.removeEventlogCall cfg.ServiceName],
              some .eventlogRemoveFailed)
      else
        some (pre ++ [MgrOut.deleteServiceCall,
                      MgrOut.removeEventlogCall cfg.ServiceName,
                      MgrOut.removedPrinted cfg.ServiceName],
              none)

/-- C6: on an openable service whose Stop control fails, removeService
prints the ignored-failure message and continues: Delete is still
attempted; if Delete fails that error is returned; if Delete succeeds the
event-log source removal is attempted and its failure is returned, even
though the stop step was best-effort; if both succeed the call succeeds. -/
theorem removeService_best_effort_stop (cfg : ServiceConfig)
    (q : Nat → Option SvcState) (fuel : Nat) (del ev : Bool) :
    removeService cfg ⟨true, true, none, q, del, ev⟩ fuel =
      some ([MgrOut.openServiceCall cfg.ServiceName, MgrOut.controlStopCall,
             MgrOut.stopIgnoredPrinted, MgrOut.deleteServiceCall] ++
              (if del then
                [MgrOut.removeEventlogCall cfg.ServiceName] ++
                  (if ev then [MgrOut.removedPrinted cfg.ServiceName] else [])
               else []),
            if del = false then some .deleteFailed
            else if ev = false then some .eventlogRemoveFailed
            else none) := by
  cases del <;> cases ev <;> simp [removeService]

/-- Log level constants (src/main.go:32-36). -/
def LogInfo : String := "INFO"

/-- LogError constant (src/main.go:34). -/
def LogError : String := "ERROR"

/-- LogWarning constant (src/main.go:35). -/
def LogWarning : String := "WARNING"

/-- The nilness of the three logging globals logMessage consults:
fileLogger, elog and the isDebug flag (src/main.go:20-27). -/
structure LoggerState where
  hasFileLogger : Bool
  hasEventLog : Bool
  debugMode : Bool
deriving DecidableEq, Repr

/-- One write performed by logMessage: a line appended to the log file, an
event-log record at one of the three severities, or a console line. -/
inductive SinkWrite where
  | file (line : String)
  | eventInfo (msg : String)
  | eventWarning (msg : String)
  | eventError (msg : String)
  | console (line : String)
deriving DecidableEq, Repr

/-- The event-log severity dispatch of logMessage (src/main.go:490-497):
ERROR and WARNING map to their severities, anything else to Info. -/
def eventWrite (level msg : String) : SinkWrite :=
  if level = LogError then .eventError msg
  else if level = LogWarning then .eventWarning msg
  else .eventInfo msg

/-- logMessage (src/main.go:480-504): writes "[level] message" to the file
logger if one is set, the message to the event log at the mapped severity
if one is open, and "[level] message" to the console if in debug mode.
The function is total and returns only the list of writes performed: no
error can reach the caller. -/
def logMessage (st : LoggerState) (level msg : String) : List SinkWrite :=
  (if st.hasFileLogger then
    [SinkWrite.file ("[" ++ level ++ "] " ++ msg)] else []) ++
  (if st.hasEventLog then [eventWrite level msg] else []) ++
  (if st.debugMode then
    [SinkWrite.console ("[" ++ level ++ "] " ++ msg)] else [])

/-- The file-destination writes in a list of sink writes. -/
def fileWrites : List SinkWrite → List SinkWrite
  | [] => []
  | .file s :: rest => .file s :: fileWrites rest
  | _ :: rest => fileWrites rest

/-- The event-log writes in a list of sink writes. -/
def eventLogWrites : List SinkWrite → List SinkWrite
  | [] => []
  | .eventInfo s :: rest => .eventInfo s :: eventLogWrites rest
  | .eventWarning s :: rest => .eventWarning s :: eventLogWrites rest
  | .eventError s :: rest => .eventError s :: eventLogWrites rest
  | _ :: rest => eventLogWrites rest

/-- The console writes in a list of sink writes. -/
def consoleWrites : List SinkWrite → List SinkWrite
  | [] => []
  | .console s :: rest => .console s :: consoleWrites rest
  | _ :: rest => consoleWrites rest

/-- An event-log record is never a file write. -/
theorem fileWrites_eventWrite_cons (level msg : String)
    (rest : List SinkWrite) :
    fileWrites (eventWrite level msg :: rest) = fileWrites rest := by
  unfold eventWrite
  split_ifs <;> simp [fileWrites]

/-- An event-log record is never a console write. -/
theorem consoleWrites_eventWrite_cons (level msg : String)
    (rest : List SinkWrite) :
    consoleWrites (eventWrite level msg :: rest) = consoleWrites rest := by
  unfold eventWrite
  split_ifs <;> simp [consoleWrites]

/-- An event-log record is always an event-log write. -/
theorem eventLogWrites_eventWrite_cons (level msg : String)
    (rest : List SinkWrite) :
    eventLogWrites (eventWrite level msg :: rest) =
      eventWrite level msg :: eventLogWrites rest := by
  unfold eventWrite
  split_ifs <;> simp [eventLogWrites]

/-- C7: logMessage attempts each destination independently: what reaches
the file destination is determined solely by whether a file logger is
configured, likewise for the event log and the console (so the absence of
one destination never affects the others); the console is written exactly
when the debug flag is set; and with no file destination configured the
event-log and console destinations are still attempted as configured.
Being a total function into a list of writes, logMessage returns no error
to its caller on any input. -/
theorem logMessage_sinks_independent (st st' : LoggerState)
    (level msg : String) :
    (st.hasFileLogger = st'.hasFileLogger →
      fileWrites (logMessage st level msg) =
        fileWrites (logMessage st' level msg)) ∧
    (st.hasEventLog = st'.hasEventLog →
      eventLogWrites (logMessage st level msg) =
        eventLogWrites (logMessage st' level msg)) ∧
    (st.debugMode = st'.debugMode →
      consoleWrites (logMessage st level msg) =
        consoleWrites (logMessage st' level msg)) ∧
    (consoleWrites (logMessage st level msg) ≠ [] ↔ st.debugMode = true) ∧
    (logMessage ⟨false, st.hasEventLog, st.debugMode⟩ level msg =
      (if st.hasEventLog then [eventWrite level msg] else []) ++
        (if st.debugMode then
          [SinkWrite.console ("[" ++ level ++ "] " ++ msg)] else [])) := by
  obtain ⟨f, e, d⟩ := st
  obtain ⟨f', e', d'⟩ := st'
  refine ⟨?_, ?_, ?_, ?_, ?_⟩ <;>
    cases f <;> cases e <;> cases d <;> cases f' <;> cases e' <;> cases d' <;>
      simp [logMessage, fileWrites, eventLogWrites, consoleWrites,
        fileWrites_eventWrite_cons, consoleWrites_eventWrite_cons,
        eventLogWrites_eventWrite_cons]

/-- C7 witness: with no file destination configured but event log and
console present, the event-log and console writes are those of a fully
configured logger. -/
theorem logMessage_sinks_independent_check :
    ((true : Bool) = true →
      fileWrites (logMessage ⟨true, true, true⟩ "INFO" "m") =
        fileWrites (logMessage ⟨true, false, false⟩ "INFO" "m")) ∧
    ((true : Bool) = false →
      eventLogWrites (logMessage ⟨true, true, true⟩ "INFO" "m") =
        eventLogWrites (logMessage ⟨true, false, false⟩ "INFO" "m")) ∧
    ((true : Bool) = false →
      consoleWrites (logMessage ⟨true, true, true⟩ "INFO" "m") =
        consoleWrites (logMessage ⟨true, false, false⟩ "INFO" "m")) ∧
    (consoleWrites (logMessage ⟨true, true, true⟩ "INFO" "m") ≠ [] ↔
      (true : Bool) = true) ∧
    (logMessage ⟨false, true, true⟩ "INFO" "m" =
      (if (true : Bool) then [eventWrite "INFO" "m"] else []) ++
        (if (true : Bool) then
          [SinkWrite.console ("[" ++ "INFO" ++ "] " ++ "m")] else [])) :=
  logMessage_sinks_independent ⟨true, true, true⟩ ⟨true, false, false⟩
    "INFO" "m"

/-- One statement site of logMessage inside the Execute callback and the
manager helpers, together with its formatted payload (main.go log calls,
in source order). -/
inductive LogText where
  | argEcho (arg : String)
  | dirInitFailed
  | fileLoggerInitFailed
  | monitorInitialized
  | dbPathSet (path : String)
  | monitorStartFailed
  | monitorStarted
  | serviceStarted (name : String)
  | heartbeat (name : String)
  | fileEvent (fileType path : String)
  | stopRequested (name : String)
  | unexpectedControl (cmd : Nat) (echo : SvcStatus)
  | monitorStopped
  | serviceEnded (name : String)
deriving DecidableEq, Repr

/-- The calls Execute makes on the monitoring collaborator
(github.com/yhj0901/windowsIOMonitoring/pkg/monitor). -/
inductive MonitorCall where
  | newMonitor (intervalSeconds : Nat)
  | setDatabasePath (path : String)
  | addDevice (path : String)
  | setFileFilters (filters : List String)
  | startMonitor
  | stopMonitor
deriving DecidableEq, Repr

/-- Externally visible actions of myService.Execute: a status sent on the
changes channel, a logMessage call, or a monitor-collaborator call. -/
inductive ExecOut where
  | status (s : SvcStatus)
  | logged (level : String) (text : LogText)
  | monCall (c : MonitorCall)
deriving DecidableEq, Repr

/-- One arrival the select statement of the control loop (main.go:100-118)
can wake up on: a ticker tick, a monitor file event, or an OS control
request carrying a command code and the echoed current status. -/
inductive LoopInput where
  | tick
  | monitorEvent (fileType path : String)
  | control (cmd : Nat) (currentStatus : SvcStatus)
deriving DecidableEq, Repr

/-- Outcomes of the external calls Execute makes, plus the sequence of
arrivals its control loop sees: the service start arguments, whether
initializeDirectories and initializeFileLogger succeed, whether
monitorInstance.Start succeeds, and the loop arrivals in order. -/
structure ExecEnv where
  args : List String
  dirsInitOk : Bool
  fileLoggerInitOk : Bool
  monitorStartOk : Bool
  inputs : List LoopInput
deriving DecidableEq, Repr

/-- One iteration of the control loop's select dispatch (main.go:100-118):
the outputs it produces and whether it breaks out of the loop.  A tick
logs the heartbeat; a monitor event logs the event; a control request is
dispatched on its command — Interrogate echoes the current status back on
the changes channel, Stop and Shutdown log and break, anything else logs
the unexpected request at Error level. -/
def handleInput (cfg : ServiceConfig) : LoopInput → List ExecOut × Bool
  | .tick => ([.logged LogInfo (.heartbeat cfg.ServiceName)], false)
  | .monitorEvent ft p => ([.logged LogInfo (.fileEvent ft p)], false)
  | .control c echo =>
    if c = svcInterrogateCmd then ([.status echo], false)
    else if c = svcStopCmd ∨ c = svcShutdownCmd then
      ([.logged LogInfo (.stopRequested cfg.ServiceName)], true)
    else ([.logged LogError (.unexpectedControl c echo)], false)

/-- The control loop (main.go:98-119): handle arrivals one at a time until
one of them breaks the loop; arrivals after the break are never handled.
Returns the concatenated outputs and whether the loop was broken (if the
arrival sequence runs out without a Stop or Shutdown, the Go loop is still
blocked and the callback has produced exactly these outputs so far). -/
def runLoop (cfg : ServiceConfig) : List LoopInput → List ExecOut × Bool
  | [] => ([], false)
  | i :: rest =>
    let step := handleInput cfg i
    if step.2 then (step.1, true)
    else (step.1 ++ (runLoop cfg rest).1, (runLoop cfg rest).2)

/-- myService.Execute (src/main.go:41-133): log each start argument, report
StartPending, run initializeDirectories and initializeFileLogger (either
failure logs and aborts the callback), construct and configure the monitor
(10-second interval, database path, one AddDevice per configured
monitoring path, the fixed ".exe"/".dll" file filters) and start it
(failure logs and aborts), log success, report Running accepting
Stop/Shutdown, log the start, run the control loop, and if the loop was
broken report StopPending, stop the monitor, and report Stopped. -/
def execute (cfg : ServiceConfig) (env : ExecEnv) : List ExecOut :=
  let pre := env.args.map (fun a => ExecOut.logged LogInfo (.argEcho a)) ++
    [ExecOut.status ⟨.startPending, 0⟩]
  if ¬env.dirsInitOk then pre ++ [.logged LogError .dirInitFailed]
  else if ¬env.fileLoggerInitOk then
    pre ++ [.logged LogError .fileLoggerInitFailed]
  else
    let setup := [ExecOut.monCall (.newMonitor 10),
      ExecOut.logged LogInfo .monitorInitialized,
      ExecOut.logged LogInfo (.dbPathSet cfg.DatabasePath),
      ExecOut.monCall (.setDatabasePath cfg.DatabasePath)] ++
      cfg.MonitoringPath.map (fun p => ExecOut.monCall (.addDevice p)) ++
      [ExecOut.monCall (.setFileFilters [".exe", ".dll"]),
       ExecOut.monCall .startMonitor]
    if ¬env.monitorStartOk then
      pre ++ setup ++ [.logged LogError .monitorStartFailed]
    else
      pre ++ setup ++
        [ExecOut.logged LogInfo .monitorStarted,
         ExecOut.status ⟨.running, cmdsAccepted⟩,
         ExecOut.logged LogInfo (.serviceStarted cfg.ServiceName)] ++
        (runLoop cfg env.inputs).1 ++
        (if (runLoop cfg env.inputs).2 then
          [ExecOut.status ⟨.stopPending, 0⟩,
           ExecOut.monCall .stopMonitor,
           ExecOut.logged LogInfo .monitorStopped,
           ExecOut.status ⟨.stopped, 0⟩,
           ExecOut.logged LogInfo (.serviceEnded cfg.ServiceName)]
         else [])

/-- C8: an Interrogate control request arriving at the control loop makes
the loop reply with exactly the request's echoed current status, produces
no other output and no log entry, does not change whether or when the loop
exits (the break decision is exactly that of the remaining arrivals), and
the loop goes on to handle all remaining arrivals as it would have without
the request. -/
theorem runLoop_interrogate_echoes_status (cfg : ServiceConfig)
    (echo : SvcStatus) (rest : List LoopInput) :
    runLoop cfg (.control svcInterrogateCmd echo :: rest) =
      (ExecOut.status echo :: (runLoop cfg rest).1, (runLoop cfg rest).2) := by
  simp [runLoop, handleInput]

/-- C9: a control request whose command is none of Interrogate, Stop and
Shutdown makes the loop emit one Error-level log entry recording the
unrecognized request, produce no status report, not break out of the loop,
and go on to handle all remaining arrivals (ticks, monitor events and
further control requests alike) as it would have without the request. -/
theorem runLoop_unknown_control_logged (cfg : ServiceConfig) (c : Nat)
    (echo : SvcStatus) (rest : List LoopInput)
    (h1 : c ≠ svcInterrogateCmd) (h2 : c ≠ svcStopCmd)
    (h3 : c ≠ svcShutdownCmd) :
    runLoop cfg (.control c echo :: rest) =
      (ExecOut.logged LogError (.unexpectedControl c echo) ::
        (runLoop cfg rest).1,
       (runLoop cfg rest).2) := by
  simp [runLoop, handleInput, h1, h2, h3]

/-- C9 witness: command code 2 (svc.Pause) at a concrete run: logged at
Error level and the loop still handles the following tick. -/
theorem runLoop_unknown_control_logged_check :
    runLoop defaultConfig (.control 2 ⟨.running, 5⟩ :: [LoopInput.tick]) =
      (ExecOut.logged LogError (.unexpectedControl 2 ⟨.running, 5⟩) ::
        (runLoop defaultConfig [LoopInput.tick]).1,
       (runLoop defaultConfig [LoopInput.tick]).2) :=
  runLoop_unknown_control_logged defaultConfig 2 ⟨.running, 5⟩
    [LoopInput.tick] (by decide) (by decide) (by decide)

/-- The SetFileFilters calls recorded in an Execute trace, with the filter
lists they pass. -/
def fileFilterCalls : List ExecOut → List (List String)
  | [] => []
  | .monCall (.setFileFilters fs) :: rest => fs :: fileFilterCalls rest
  | _ :: rest => fileFilterCalls rest

/-- fileFilterCalls distributes over concatenation. -/
theorem fileFilterCalls_append (l m : List ExecOut) :
    fileFilterCalls (l ++ m) = fileFilterCalls l ++ fileFilterCalls m := by
  induction l with
  | nil => rfl
  | cons x rest ih =>
    cases x with
    | status s => simp [fileFilterCalls, ih]
    | logged lv t => simp [fileFilterCalls, ih]
    | monCall c => cases c <;> simp [fileFilterCalls, ih]

/-- A list of argument-echo log entries contains no SetFileFilters call. -/
theorem fileFilterCalls_args (args : List String) :
    fileFilterCalls
      (args.map fun a => ExecOut.logged LogInfo (.argEcho a)) = [] := by
  induction args with
  | nil => rfl
  | cons a rest ih => simp [fileFilterCalls, ih]

/-- A list of AddDevice calls contains no SetFileFilters call. -/
theorem fileFilterCalls_addDevice (paths : List String) :
    fileFilterCalls
      (paths.map fun p => ExecOut.monCall (.addDevice p)) = [] := by
  induction paths with
  | nil => rfl
  | cons p rest ih => simp [fileFilterCalls, ih]

/-- The control loop never calls SetFileFilters. -/
theorem fileFilterCalls_runLoop (cfg : ServiceConfig) (l : List LoopInput) :
    fileFilterCalls (runLoop cfg l).1 = [] := by
  induction l with
  | nil => rfl
  | cons i rest ih =>
    cases i with
    | tick => simp [runLoop, handleInput, fileFilterCalls, ih]
    | monitorEvent ft p => simp [runLoop, handleInput, fileFilterCalls, ih]
    | control c echo =>
      by_cases h1 : c = svcInterrogateCmd
      · simp [runLoop, handleInput, h1, fileFilterCalls, ih]
      · by_cases h2 : c = svcStopCmd ∨ c = svcShutdownCmd
        · simp [runLoop, handleInput, h1, h2, fileFilterCalls]
        · simp [runLoop, handleInput, h1, h2, fileFilterCalls, ih]

/-- C10: in every execution of the callback, the file-extension allow-list
passed to the monitoring collaborator is the fixed list [".exe", ".dll"]:
SetFileFilters is called exactly once with that list whenever setup
reaches the monitor-configuration stage (and never otherwise), whatever
the loaded configuration contains — the right-hand side does not depend
on cfg. -/
theorem execute_file_filters_hardcoded (cfg : ServiceConfig)
    (env : ExecEnv) :
    fileFilterCalls (execute cfg env) =
      if env.dirsInitOk ∧ env.fileLoggerInitOk then [[".exe", ".dll"]]
      else [] := by
  cases hd : env.dirsInitOk <;> cases hl : env.fileLoggerInitOk <;>
    cases hm : env.monitorStartOk <;>
      cases hb : (runLoop cfg env.inputs).2 <;>
        simp [execute, hd, hl, hm, hb, fileFilterCalls_append,
          fileFilterCalls, fileFilterCalls_args, fileFilterCalls_addDevice,
          fileFilterCalls_runLoop]

/-- The states of the status reports sent on the changes channel, in order,
extracted from an Execute trace. -/
def statusesOf : List ExecOut → List SvcState
  | [] => []
  | .status s :: rest => s.state :: statusesOf rest
  | _ :: rest => statusesOf rest

/-- statusesOf distributes over concatenation. -/
theorem statusesOf_append (l m : List ExecOut) :
    statusesOf (l ++ m) = statusesOf l ++ statusesOf m := by
  induction l with
  | nil => rfl
  | cons x rest ih => cases x <;> simp [statusesOf, ih]

/-- A list of argument-echo log entries reports no status. -/
theorem statusesOf_args (args : List String) :
    statusesOf (args.map fun a => ExecOut.logged LogInfo (.argEcho a)) =
      [] := by
  induction args with
  | nil => rfl
  | cons a rest ih => simp [statusesOf, ih]

/-- A list of AddDevice calls reports no status. -/
theorem statusesOf_addDevice (paths : List String) :
    statusesOf (paths.map fun p => ExecOut.monCall (.addDevice p)) = [] := by
  induction paths with
  | nil => rfl
  | cons p rest ih => simp [statusesOf, ih]

/-- The echoed current statuses the control loop sends while handling a
given arrival sequence: one per Interrogate handled before the loop breaks
(these are the only statuses the loop itself reports). -/
def loopEchoStates : List LoopInput → List SvcState
  | [] => []
  | .control c echo :: rest =>
    if c = svcInterrogateCmd then echo.state :: loopEchoStates rest
    else if c = svcStopCmd ∨ c = svcShutdownCmd then []
    else loopEchoStates rest
  | _ :: rest => loopEchoStates rest

/-- Whether the control loop breaks (a Stop or Shutdown command is handled)
on a given arrival sequence. -/
def loopBreaks : List LoopInput → Bool
  | [] => false
  | .control c _ :: rest =>
    if c = svcInterrogateCmd then loopBreaks rest
    else if c = svcStopCmd ∨ c = svcShutdownCmd then true
    else loopBreaks rest
  | _ :: rest => loopBreaks rest

/-- The statuses the control loop reports are exactly the Interrogate
echoes, and it breaks exactly on the first Stop or Shutdown. -/
theorem runLoop_statuses (cfg : ServiceConfig) (l : List LoopInput) :
    statusesOf (runLoop cfg l).1 = loopEchoStates l ∧
    (runLoop cfg l).2 = loopBreaks l := by
  induction l with
  | nil => exact ⟨rfl, rfl⟩
  | cons i rest ih =>
    cases i with
    | tick =>
      simp [runLoop, handleInput, statusesOf, loopEchoStates, loopBreaks,
        ih.1, ih.2]
    | monitorEvent ft p =>
      simp [runLoop, handleInput, statusesOf, loopEchoStates, loopBreaks,
        ih.1, ih.2]
    | control c echo =>
      by_cases h1 : c = svcInterrogateCmd
      · simp [runLoop, handleInput, statusesOf, loopEchoStates, loopBreaks,
          h1, ih.1, ih.2]
      · by_cases h2 : c = svcStopCmd ∨ c = svcShutdownCmd
        · simp [runLoop, handleInput, statusesOf, loopEchoStates, loopBreaks,
            h1, h2]
        · simp [runLoop, handleInput, statusesOf, loopEchoStates, loopBreaks,
            h1, h2, ih.1, ih.2]

/-- The status reports of a whole Execute run: StartPending first, then —
only when every setup step succeeded — Running, the Interrogate echoes,
and, when the loop was broken by Stop or Shutdown, StopPending followed by
Stopped. -/
theorem statusesOf_execute (cfg : ServiceConfig) (env : ExecEnv) :
    statusesOf (execute cfg env) =
      SvcState.startPending ::
        (if env.dirsInitOk ∧ env.fileLoggerInitOk ∧ env.monitorStartOk then
          SvcState.running ::
            (loopEchoStates env.inputs ++
              (if loopBreaks env.inputs then
                [SvcState.stopPending, SvcState.stopped] else []))
         else []) := by
  cases hd : env.dirsInitOk <;> cases hl : env.fileLoggerInitOk <;>
    cases hm : env.monitorStartOk <;>
      cases hb : (runLoop cfg env.inputs).2 <;>
        simp [execute, hd, hl, hm, hb, statusesOf_append, statusesOf,
          statusesOf_args, statusesOf_addDevice,
          (runLoop_statuses cfg env.inputs).1,
          hb ▸ (runLoop_statuses cfg env.inputs).2.symm]

/-- In `l`, every occurrence of `b` is strictly preceded by an occurrence
of `a`. -/
def Precedes (a b : SvcState) (l : List SvcState) : Prop :=
  ∀ i, l.get? i = some b → ∃ j, j < i ∧ l.get? j = some a

/-- A state that does not occur is vacuously preceded. -/
theorem precedes_of_not_mem (a b : SvcState) (l : List SvcState)
    (h : b ∉ l) : Precedes a b l := by
  intro i hi
  exact absurd (List.get?_mem hi) h

/-- Prepending the required predecessor establishes precedence. -/
theorem precedes_cons_head (a b : SvcState) (l : List SvcState)
    (h : a ≠ b) : Precedes a b (a :: l) := by
  intro i hi
  cases i with
  | zero =>
    rw [List.get?_cons_zero] at hi
    exact absurd (Option.some_injective _ hi) h
  | succ n => exact ⟨0, Nat.succ_pos n, List.get?_cons_zero⟩

/-- Prepending anything other than `b` preserves precedence. -/
theorem precedes_cons (a b x : SvcState) (l : List SvcState)
    (hx : x ≠ b) (h : Precedes a b l) : Precedes a b (x :: l) := by
  intro i hi
  cases i with
  | zero =>
    rw [List.get?_cons_zero] at hi
    exact absurd (Option.some_injective _ hi) hx
  | succ n =>
    rw [List.get?_cons_succ] at hi
    obtain ⟨j, hj, hja⟩ := h n hi
    exact ⟨j + 1, Nat.succ_lt_succ hj, by rw [List.get?_cons_succ]; exact hja⟩

/-- Prepending a list free of `b` preserves precedence. -/
theorem precedes_append (a b : SvcState) (l m : List SvcState)
    (hl : b ∉ l) (hm : Precedes a b m) : Precedes a b (l ++ m) := by
  induction l with
  | nil => simpa using hm
  | cons x rest ih =>
    have hx : x ≠ b := fun hxb => hl (hxb ▸ List.mem_cons_self x rest)
    have hrest : b ∉ rest := fun hb => hl (List.mem_cons_of_mem x hb)
    exact precedes_cons a b x (rest ++ m) hx (ih hrest)

/-- C1: in every execution of the callback whose Interrogate echoes do not
themselves carry a Stopped state (the OS echoes the service's current
status, and a service being interrogated inside its control loop is not
Stopped), the status reports sent to the OS satisfy: StartPending is
reported first; Running is reported only after StartPending and only if
directory initialization, file-logger initialization and the monitor
start all succeeded; Stopped is reported only after StopPending; and if
any setup step fails the callback returns without ever reporting
Running. -/
theorem execute_status_protocol (cfg : ServiceConfig) (env : ExecEnv)
    (h : SvcState.stopped ∉ loopEchoStates env.inputs) :
    (statusesOf (execute cfg env)).head? = some .startPending ∧
    Precedes .startPending .running (statusesOf (execute cfg env)) ∧
    (SvcState.running ∈ statusesOf (execute cfg env) →
      env.dirsInitOk ∧ env.fileLoggerInitOk ∧ env.monitorStartOk) ∧
    Precedes .stopPending .stopped (statusesOf (execute cfg env)) ∧
    (¬(env.dirsInitOk ∧ env.fileLoggerInitOk ∧ env.monitorStartOk) →
      SvcState.running ∉ statusesOf (execute cfg env)) := by
  have hchar := statusesOf_execute cfg env
  by_cases hsetup :
      (env.dirsInitOk ∧ env.fileLoggerInitOk ∧ env.monitorStartOk : Prop)
  · rw [if_pos hsetup] at hchar
    refine ⟨?_, ?_, ?_, ?_, ?_⟩
    · rw [hchar]; rfl
    · rw [hchar]
      exact precedes_cons_head _ _ _ (by decide)
    · intro _
      exact hsetup
    · rw [hchar]
      apply precedes_cons _ _ _ _ (by decide)
      apply precedes_cons _ _ _ _ (by decide)
      by_cases hb : loopBreaks env.inputs = true
      · rw [if_pos hb]
        exact precedes_append _ _ _ _ h (precedes_cons_head _ _ _ (by decide))
      · rw [if_neg hb, List.append_nil]
        exact precedes_of_not_mem _ _ _ h
    · intro hna
      exact absurd hsetup hna
  · rw [if_neg hsetup] at hchar
    refine ⟨?_, ?_, ?_, ?_, ?_⟩
    · rw [hchar]; rfl
    · rw [hchar]
      exact precedes_cons_head _ _ _ (by decide)
    · intro hmem
      rw [hchar] at hmem
      simp at hmem
    · rw [hchar]
      exact precedes_of_not_mem _ _ _ (by simp)
    · intro _
      rw [hchar]
      simp

/-- A sample callback run: arguments ["is", "auto-started"], every setup
step succeeding, and a loop that sees a tick, an Interrogate echoing the
Running status, and then a Stop control. -/
def sampleExecEnv : ExecEnv :=
  ⟨["is", "auto-started"], true, true, true,
   [.tick, .control svcInterrogateCmd ⟨.running, 5⟩,
    .control svcStopCmd ⟨.running, 5⟩]⟩

/-- C1 witness: the protocol holds on the sample run. -/
theorem execute_status_protocol_check :
    (statusesOf (execute defaultConfig sampleExecEnv)).head? =
      some .startPending ∧
    Precedes .startPending .running
      (statusesOf (execute defaultConfig sampleExecEnv)) ∧
    (SvcState.running ∈ statusesOf (execute defaultConfig sampleExecEnv) →
      sampleExecEnv.dirsInitOk ∧ sampleExecEnv.fileLoggerInitOk ∧
        sampleExecEnv.monitorStartOk) ∧
    Precedes .stopPending .stopped
      (statusesOf (execute defaultConfig sampleExecEnv)) ∧
    (¬(sampleExecEnv.dirsInitOk ∧ sampleExecEnv.fileLoggerInitOk ∧
        sampleExecEnv.monitorStartOk) →
      SvcState.running ∉ statusesOf (execute defaultConfig sampleExecEnv)) :=
  execute_status_protocol defaultConfig sampleExecEnv (by decide)
